import Mathlib

/-!
Shallow embedding of the live git-repository tracking core of the
git_visualization application (Electron main process + renderer subscriber),
translated from:
  src/app/main/ipc/socket.ts        (GitWatcher: reference-log tail watcher)
  src/app/main/git/hookServer.ts    (HookServer: push-channel HTTP endpoint)
  src/app/main/index.ts             (GitFlowVisualizerApp: session controller)
  src/unnamed/part_007              (GitService: baseline log loading)
  src/app/shared/constants.ts       (constants)
  src/app/renderer/src/App.tsx      (subscriber-side git-event handling)

JavaScript string primitives (String.prototype.split, trim, toLowerCase,
includes, Array.prototype.join) are embedded as executable functions over
character lists so that concrete runs reduce in the kernel.  The embedding
of toLowerCase uses the ASCII case mapping (all strings appearing in the
program's comparisons are ASCII).  External collaborators (the git binary,
the filesystem, Node's path.normalize) are passed in as explicit oracle
parameters or modelled from their documented contracts where noted.
-/

/-! ## JavaScript string primitives over character lists -/

/-- Char-list version of: the string starts with the given pattern. -/
def clStartsWith : List Char → List Char → Bool
  | _, [] => true
  | [], _ :: _ => false
  | a :: as, b :: bs => a == b && clStartsWith as bs

/-- Char-list version of JavaScript String.prototype.includes
(substring occurrence test); every call site passes a non-empty pattern. -/
def clIncludes : List Char → List Char → Bool
  | s, pat =>
    clStartsWith s pat ||
      match s with
      | [] => false
      | _ :: rest => clIncludes rest pat

/-- Fuel-driven worker for JavaScript String.prototype.split with a
non-empty string separator.  Fuel is the length of the input, which
suffices because each step consumes at least one character. -/
def clSplitGo (sep : List Char) : Nat → List Char → List (List Char)
  | _, [] => [[]]
  | 0, s => [s]
  | fuel + 1, c :: rest =>
    if clStartsWith (c :: rest) sep then
      [] :: clSplitGo sep fuel ((c :: rest).drop sep.length)
    else
      match clSplitGo sep fuel rest with
      | [] => [[c]]
      | seg :: segs => (c :: seg) :: segs

/-- JavaScript s.split(sep) for a non-empty separator string. -/
def jsSplit (s sep : String) : List String :=
  (clSplitGo sep.data s.data.length s.data).map String.mk

/-- Drop leading whitespace characters. -/
def clTrimLeft : List Char → List Char
  | [] => []
  | c :: rest => if c.isWhitespace then clTrimLeft rest else c :: rest

/-- JavaScript s.trim(): strip whitespace from both ends. -/
def jsTrim (s : String) : String :=
  String.mk ((clTrimLeft (clTrimLeft s.data.reverse).reverse))

/-- JavaScript s.toLowerCase(), restricted to the ASCII case mapping. -/
def jsToLower (s : String) : String :=
  String.mk (s.data.map Char.toLower)

/-- JavaScript s.includes(pat). -/
def jsIncludes (s pat : String) : Bool :=
  clIncludes s.data pat.data

/-- JavaScript array.join(sep). -/
def jsJoin (sep : String) : List String → String
  | [] => ""
  | [x] => x
  | x :: y :: rest => x ++ sep ++ jsJoin sep (y :: rest)

/-! ## Shared constants (src/app/shared/constants.ts) -/

def FILE_WATCHER_DEBOUNCE_MS : Nat := 200

def MAX_COMMITS_TO_LOAD : Nat := 5000

/-! ## GitWatcher (src/app/main/ipc/socket.ts, class GitWatcher) -/

/-- Event type union of WatcherEvent (socket.ts line 167). -/
inductive WatcherEventType where
  | commit
  | checkout
  | merge
  | unknown
deriving DecidableEq

/-- String value of a WatcherEventType (in the source the type is a union
of string literals). -/
def WatcherEventType.str : WatcherEventType → String
  | .commit => "commit"
  | .checkout => "checkout"
  | .merge => "merge"
  | .unknown => "unknown"

/-- WatcherEvent (socket.ts lines 166-170). -/
structure WatcherEvent where
  type : WatcherEventType
  hash : Option String := none
  ref : Option String := none
deriving DecidableEq

/-- Captured group of the JavaScript regular expression
/checkout: moving from .+ to (.+)/ applied to a remainder string r,
where r is the text following the literal "checkout: moving from ".
Greedy backtracking of ".+" means the match uses the last character
position p of r at which " to " occurs (occurrences may overlap, so the
scan is over all positions) with at least one character before it (the
non-empty match for ".+") and at least one character after the
four-character separator (the non-empty capture); the capture is the
suffix of r after that separator.  The embedding assumes r contains no
newline character, which holds for every string reaching this function:
they are single lines produced by splitting file content on newlines. -/
def lastToCapture (r : String) : Option String :=
  let cs := r.data
  let valid := (List.range cs.length).filter (fun p =>
    decide (1 ≤ p) && clStartsWith (cs.drop p) [' ', 't', 'o', ' ']
                   && decide (p + 4 < cs.length))
  valid.getLast?.map (fun p => String.mk (cs.drop (p + 4)))

/-- Embedding of: action.match(/checkout: moving from .+ to (.+)/),
returning the captured destination ref (socket.ts line 312).  The regular
expression matches at the leftmost occurrence of the literal
"checkout: moving from " whose remainder decomposes as ".+ to .+"; the
greedy capture is independent of which occurrence is chosen, so the
remainder after the first occurrence is used. -/
def extractCheckoutRef (action : String) : Option String :=
  match jsSplit action "checkout: moving from " with
  | _ :: rest :: more => lastToCapture (jsJoin "checkout: moving from " (rest :: more))
  | _ => none

/-- GitWatcher.parseLogLine (socket.ts lines 294-324): parse one line of
.git/logs/HEAD into a WatcherEvent.  Returns none when the line has fewer
than 2 tab-separated parts or the pre-tab header has fewer than 3
space-separated tokens. -/
def parseLogLine (line : String) : Option WatcherEvent :=
  match jsSplit line "\t" with
  | header :: actionRaw :: _ =>
    match jsSplit header " " with
    | _ :: newHash :: _ :: _ =>
      let action := jsToLower actionRaw
      if jsIncludes action "commit" then
        if jsIncludes action "merge" then
          some { type := .merge, hash := some newHash }
        else
          some { type := .commit, hash := some newHash }
      else if jsIncludes action "checkout" then
        some { type := .checkout, hash := some newHash,
               ref := extractCheckoutRef action }
      else if jsIncludes action "merge" then
        some { type := .merge, hash := some newHash }
      else
        some { type := .unknown, hash := some newHash }
    | _ => none
  | _ => none

/-- GitWatcher.getLastLine (socket.ts lines 279-288) applied to the file
content read from disk: trim, split on newlines, take the last line;
an empty result is returned as none (the source returns lines[last] or
null, and later checks truthiness). -/
def getLastLine (content : String) : Option String :=
  match (jsSplit (jsTrim content) "\n").getLast? with
  | none => none
  | some l => if l = "" then none else some l

/-- GitWatcher.processFileChange (socket.ts lines 255-274) as a state
transition.  Input: the current file content (the filesystem read is made
explicit) and the current value of the lastProcessedLine field.  Output:
the new value of lastProcessedLine and the event forwarded to the
registered callback, if any.  Note the source assigns lastProcessedLine
before parsing the line. -/
def processFileChange (content : String) (lastProcessedLine : Option String) :
    Option String × Option WatcherEvent :=
  match getLastLine content with
  | none => (lastProcessedLine, none)
  | some lastLine =>
    if some lastLine = lastProcessedLine then
      (lastProcessedLine, none)
    else
      (some lastLine, parseLogLine lastLine)

/-- Trace semantics of GitWatcher.handleFileChange (socket.ts lines
242-250), which clears any pending debounce timer and arms a new one for
FILE_WATCHER_DEBOUNCE_MS.  Input: the monotone list of arrival times (in
milliseconds) of raw filesystem change notifications.  Output: the times
at which the debounce timer fires and the reference-log file is re-read
(processFileChange runs).  A timer armed at time t is cancelled exactly
when the next notification arrives before t + FILE_WATCHER_DEBOUNCE_MS. -/
def fireTimes : List Nat → List Nat
  | [] => []
  | [t] => [t + FILE_WATCHER_DEBOUNCE_MS]
  | t :: t2 :: rest =>
    if t2 < t + FILE_WATCHER_DEBOUNCE_MS then
      fireTimes (t2 :: rest)
    else
      (t + FILE_WATCHER_DEBOUNCE_MS) :: fireTimes (t2 :: rest)

/-! ## GitService (src/unnamed/part_007, class GitService) -/

/-- CommitNode (src/app/renderer/src/types.ts; the main-process types file
declares the same shape, as witnessed by every construction site in
GitService). -/
structure CommitNode where
  id : String
  parents : List String
  author : String
  email : String
  date : String
  message : String
  refs : List String
deriving DecidableEq

/-- GitService.parseRefs (part_007 lines 165-172): split a decoration
string on commas, trim each entry, drop empties. -/
def parseRefs (refs : String) : List String :=
  if refs = "" || jsTrim refs = "" then []
  else ((jsSplit refs ",").map jsTrim).filter (fun r => r ≠ "")

/-- One iteration of the parse loop of GitService.getFullLog (part_007
lines 64-81): skip blank lines, skip lines with fewer than 6
delimiter-separated fields, otherwise build a CommitNode.  The delimiter
is the three-character sequence of vertical bars chosen by the source. -/
def parseCommitLine (line : String) : Option CommitNode :=
  if jsTrim line = "" then none
  else
    match jsSplit line "|||" with
    | p0 :: p1 :: p2 :: p3 :: p4 :: p5 :: rest =>
      some { id := p0
           , parents := if p1 = "" then [] else jsSplit p1 " "
           , author := p2
           , email := p3
           , date := p4
           , message := p5
           , refs := match rest with
                     | [] => []
                     | p6 :: _ => if p6 = "" then [] else parseRefs p6 }
    | _ => none

/-- The whole parse loop of GitService.getFullLog over the split lines. -/
def parseLines (lines : List String) : List CommitNode :=
  lines.filterMap parseCommitLine

/-- GitService.getFullLog parsing stage (part_007 lines 61-83): trim the
raw output of the log invocation, split on newlines, run the parse loop. -/
def parseLogOutput (raw : String) : List CommitNode :=
  parseLines (jsSplit (jsTrim raw) "\n")

/-- Modelled from the contract of the external git binary: the line
git log prints for one commit under the pretty format
%H|||%P|||%an|||%ae|||%ad|||%s|||%D built in getFullLog (part_007 lines
39-50): parent hashes are space-separated and decorations are printed
comma-space-separated. -/
def formatCommitLine (c : CommitNode) : String :=
  c.id ++ "|||" ++ jsJoin " " c.parents ++ "|||" ++ c.author ++ "|||"
       ++ c.email ++ "|||" ++ c.date ++ "|||" ++ c.message ++ "|||"
       ++ jsJoin ", " c.refs

/-- Modelled from the contract of the external git binary: the output of
the bounded multi-ref log query issued by getFullLog (part_007 lines
52-59).  The abstract repository is the reverse-chronological list of all
reachable commits; the -n flag truncates to the first limit entries, one
formatted line per commit, newline-separated. -/
def gitLogAllOutput (repo : List CommitNode) (limit : Nat) : String :=
  jsJoin "\n" ((repo.take limit).map formatCommitLine)

/-- GitService.getFullLog (part_007 lines 37-88) against an abstract
repository: invoke the modelled git log with the MAX_COMMITS_TO_LOAD
bound and parse its output. -/
def getFullLog (repo : List CommitNode) : List CommitNode :=
  parseLogOutput (gitLogAllOutput repo MAX_COMMITS_TO_LOAD)

/-! ## HookServer (src/app/main/git/hookServer.ts) -/

/-- HookEventRequest (declared in the main-process types file; field set
per the wire contract and every use site: repo and event are required by
validation, the rest optional).  Fields are optional strings because the
endpoint receives arbitrary JSON bodies in which any field may be absent. -/
structure HookEventRequest where
  repo : Option String := none
  event : Option String := none
  hash : Option String := none
  ref : Option String := none
  remote : Option String := none
  branch : Option String := none
  message : Option String := none
deriving DecidableEq

/-- JavaScript truthiness of an optional string field: undefined and the
empty string are falsy. -/
def truthy : Option String → Bool
  | none => false
  | some s => s ≠ ""

/-- Response of the /event route: 200 with a success body, or 400 when
validation fails.  (The 500 branch of the source is unreachable in the
embedding: the handler body performs no throwing operation.) -/
inductive HookResponse where
  | ok
  | badRequest
deriving DecidableEq

/-- The POST /event route handler (hookServer.ts lines 24-46): validate
that repo and event are truthy, else answer 400 without invoking the
callback; otherwise invoke the registered callback (if any) with the
payload and answer success.  The second component lists the callback
invocations made while serving the request. -/
def eventEndpoint (body : HookEventRequest) (callbackRegistered : Bool) :
    HookResponse × List HookEventRequest :=
  if !truthy body.repo || !truthy body.event then
    (.badRequest, [])
  else
    (.ok, if callbackRegistered then [body] else [])

/-! ## GitFlowVisualizerApp (src/app/main/index.ts) -/

/-- GitEventPayload (renderer types.ts lines 18-25; the main process
constructs the same shape).  The type field is the event-kind string. -/
structure GitEventPayload where
  type : String
  commit : Option CommitNode := none
  ref : Option String := none
  commitId : Option String := none
  remote : Option String := none
  branch : Option String := none
deriving DecidableEq

/-- One outbound emission through the SocketServer: the initial baseline
graph, an incremental git event, or a toast advisory. -/
inductive Emission where
  | initialGraph (repoPath : String) (commits : List CommitNode)
  | gitEvent (payload : GitEventPayload)
  | toast (kind : String) (message : String)
deriving DecidableEq

/-- The session-relevant mutable fields of GitFlowVisualizerApp (index.ts
lines 16-19): the running watcher (recorded as the path it watches, none
when stopped), the GitService instance (recorded as the path it was
constructed for) and currentRepoPath. -/
structure AppState where
  gitWatcher : Option String := none
  gitService : Option String := none
  currentRepoPath : Option String := none
deriving DecidableEq

/-- GitFlowVisualizerApp.loadRepository (index.ts lines 175-238) as a
state transition.  The result of the baseline log query is passed in as
an oracle (ok with the commit list, or error).  Output: the new state,
the emissions made, and the success flag of the returned value.  The
source stops and clears any existing watcher, then constructs the new
GitService and assigns currentRepoPath, and only then awaits the log
query; on query failure the catch block returns a failure result with no
further state change.  (The success toast interpolates
path.basename(repoPath); the external basename is elided and the full
path recorded instead, which no claim depends on.) -/
def loadRepository (st : AppState) (repoPath : String)
    (logResult : Except String (List CommitNode)) :
    AppState × List Emission × Bool :=
  let stopped : AppState := { st with gitWatcher := none }
  let switched : AppState :=
    { stopped with gitService := some repoPath, currentRepoPath := some repoPath }
  match logResult with
  | .error _ => (switched, [], false)
  | .ok commits =>
    ({ switched with gitWatcher := some repoPath },
     [ .initialGraph repoPath commits
     , .toast "success" ("Loaded repository: " ++ repoPath) ],
     true)

/-- The watcher callback registered in loadRepository (index.ts lines
202-222).  Inputs: whether gitService is non-null, the single-commit
lookup oracle (GitService.getCommit: some on success, none when it
throws), and the watcher event.  Output: the emissions.  An event without
a truthy hash is ignored; a failed lookup is caught and only logged; an
event of type unknown is emitted as type commit. -/
def onWatcherEvent (gitServiceAvailable : Bool)
    (lookup : String → Option CommitNode) (wev : WatcherEvent) :
    List Emission :=
  match wev.hash with
  | none => []
  | some h =>
    if h = "" || !gitServiceAvailable then []
    else
      match lookup h with
      | none => []
      | some c =>
        [ .gitEvent { type := if wev.type = .unknown then "commit" else wev.type.str
                    , commit := some c
                    , ref := wev.ref
                    , commitId := some h }
        , .toast "info" ("Detected " ++ wev.type.str ++ ": " ++ c.message) ]

/-- The repository guard at the top of handleHookEvent (index.ts lines
244-253): with a current path set, an event for a strictly different repo
string is ignored unless the two paths agree after path.normalize.  Node's
path.normalize is an external collaborator and is passed in as the
function norm.  When the event carries no repo string, path.normalize
throws; the throw is caught by the onEvent wrapper (index.ts lines
166-172) and the handler produces nothing, so that case also rejects. -/
def repoMismatch (currentRepoPath evRepo : Option String)
    (norm : String → String) : Bool :=
  match currentRepoPath, evRepo with
  | some cur, some r => r != cur && norm cur != norm r
  | some _, none => true
  | none, _ => false

/-- GitFlowVisualizerApp.handleHookEvent (index.ts lines 240-319).
Inputs: the app state, the hook payload, the path.normalize oracle and
the GitService.getCommit oracle.  Output: the (unchanged) state and the
emissions; the method assigns no field of the app.  A commit or merge
event needs a truthy hash; checkout needs truthy hash and ref; push emits
directly; a failed lookup is caught and surfaced as an error toast.  The
toast for commit and merge uses the payload message when truthy, else the
commit subject; the push toast interpolates possibly-undefined fields the
way JavaScript template strings do. -/
def handleHookEvent (st : AppState) (ev : HookEventRequest)
    (norm : String → String) (lookup : String → Option CommitNode) :
    AppState × List Emission :=
  if repoMismatch st.currentRepoPath ev.repo norm then (st, [])
  else if st.gitService = none then (st, [])
  else
    match ev.event with
    | none => (st, [])
    | some e =>
      if e = "commit" || e = "merge" then
        match ev.hash with
        | none => (st, [])
        | some h =>
          if h = "" then (st, [])
          else
            match lookup h with
            | none => (st, [.toast "error" "Error processing git event"])
            | some c =>
              (st, [ .gitEvent { type := e, commit := some c }
                   , .toast "success"
                       ((if e = "merge" then "Merge" else "Commit") ++ ": " ++
                        (match ev.message with
                         | some m => if m = "" then c.message else m
                         | none => c.message)) ])
      else if e = "checkout" then
        match ev.hash, ev.ref with
        | some h, some r =>
          if h = "" || r = "" then (st, [])
          else
            match lookup h with
            | none => (st, [.toast "error" "Error processing git event"])
            | some c =>
              (st, [ .gitEvent { type := "checkout", commit := some c
                               , ref := some r, commitId := some h }
                   , .toast "info" ("Checked out: " ++ r) ])
        | _, _ => (st, [])
      else if e = "push" then
        (st, [ .gitEvent { type := "push", remote := ev.remote, branch := ev.branch }
             , .toast "info" ("Pushed to " ++ ev.remote.getD "undefined" ++ "/"
                              ++ ev.branch.getD "undefined") ])
      else (st, [])

/-! ## Renderer subscriber (src/app/renderer/src/App.tsx) -/

/-- App.handleGitEvent commit-list update (App.tsx lines 64-78): an
incoming event carrying a commit is appended to the subscriber's commit
list unless a commit with the same id is already present. -/
def handleGitEvent (commits : List CommitNode) (ev : GitEventPayload) :
    List CommitNode :=
  match ev.commit with
  | none => commits
  | some c =>
    if commits.any (fun x => x.id == c.id) then commits
    else commits ++ [c]

/-! ## Helper lemmas -/

/-- A line with fewer than 2 tab-separated parts is rejected by
parseLogLine. -/
theorem parseLogLine_eq_none_of_lt_two (line : String)
    (hmal : (jsSplit line "\t").length < 2) : parseLogLine line = none := by
  unfold parseLogLine
  rcases h : jsSplit line "\t" with _ | ⟨a, _ | ⟨b, t⟩⟩
  · rfl
  · rfl
  · rw [h] at hmal
    simp at hmal
    omega

/-- A line with fewer than 6 delimiter-separated fields is rejected by
parseCommitLine. -/
theorem parseCommitLine_eq_none_of_lt_six (line : String)
    (hmal : (jsSplit line "|||").length < 6) : parseCommitLine line = none := by
  unfold parseCommitLine
  by_cases he : jsTrim line = ""
  · rw [if_pos he]
  · rw [if_neg he]
    rcases h : jsSplit line "|||" with
      _ | ⟨p0, _ | ⟨p1, _ | ⟨p2, _ | ⟨p3, _ | ⟨p4, _ | ⟨p5, rest⟩⟩⟩⟩⟩⟩
    all_goals first
      | rfl
      | (rw [h] at hmal; simp at hmal; omega)

/-! ## Claim C2: malformed last reference-log line -/

/-- C2 counterexample.  A new, malformed last line (one tab-free segment)
produces no event and does not throw, but the watcher's lastProcessedLine
field IS updated to the malformed line, contradicting the claim that it
is left unchanged. -/
theorem processFileChange_updates_lastProcessedLine_on_malformed :
    (jsSplit "malformed line" "\t").length < 2 ∧
    processFileChange "old\nmalformed line" (some "old") =
      (some "malformed line", none) ∧
    (processFileChange "old\nmalformed line" (some "old")).1 ≠ some "old" := by
  decide

/-- C2 (amended): when the last line of the reference-log file is
malformed (fewer than 2 tab-delimited segments) and differs from the
previously processed line, processing the change forwards no event to the
callback and completes without throwing (the embedding is a total
function), and lastProcessedLine is updated to the malformed line. -/
theorem processFileChange_malformed_no_event (content : String)
    (prev : Option String) (line : String)
    (hlast : getLastLine content = some line)
    (hmal : (jsSplit line "\t").length < 2)
    (hnew : some line ≠ prev) :
    processFileChange content prev = (some line, none) := by
  unfold processFileChange
  rw [hlast]
  simp only [if_neg hnew, parseLogLine_eq_none_of_lt_two line hmal]

/-- C2 witness: the amended theorem applied at a concrete file content
whose last line is malformed. -/
theorem processFileChange_malformed_no_event_witness :
    processFileChange "oldline\nbadline" (some "oldline") = (some "badline", none) :=
  processFileChange_malformed_no_event "oldline\nbadline" (some "oldline")
    "badline" (by decide) (by decide) (by decide)

/-! ## Claim C3: failed baseline load and the previous session -/

/-- C3 counterexample.  With repository /a fully loaded (watcher running,
service and current path /a), selecting /b whose baseline query fails
leaves the watcher stopped and the service and current path pointing at
/b: the previous session is not left untouched. -/
theorem loadRepository_error_tears_down_previous :
    (loadRepository
        { gitWatcher := some "/a", gitService := some "/a", currentRepoPath := some "/a" }
        "/b" (.error "log query failed")).1.gitWatcher = none ∧
    (loadRepository
        { gitWatcher := some "/a", gitService := some "/a", currentRepoPath := some "/a" }
        "/b" (.error "log query failed")).1.gitService = some "/b" ∧
    (loadRepository
        { gitWatcher := some "/a", gitService := some "/a", currentRepoPath := some "/a" }
        "/b" (.error "log query failed")).1.currentRepoPath = some "/b" ∧
    ¬((loadRepository
        { gitWatcher := some "/a", gitService := some "/a", currentRepoPath := some "/a" }
        "/b" (.error "log query failed")).1.gitWatcher = some "/a" ∧
      (loadRepository
        { gitWatcher := some "/a", gitService := some "/a", currentRepoPath := some "/a" }
        "/b" (.error "log query failed")).1.gitService = some "/a" ∧
      (loadRepository
        { gitWatcher := some "/a", gitService := some "/a", currentRepoPath := some "/a" }
        "/b" (.error "log query failed")).1.currentRepoPath = some "/a") := by
  decide

/-- C3 (amended): if the baseline log query for a newly selected
repository fails, loadRepository returns failure having emitted nothing
and started no new watcher, but the previous session has already been
torn down: the old watcher was stopped and cleared before the query ran,
and the active git service and current repository path already refer to
the new repository. -/
theorem loadRepository_error_state (st : AppState) (repoPath e : String) :
    loadRepository st repoPath (.error e) =
      ({ gitWatcher := none, gitService := some repoPath
       , currentRepoPath := some repoPath }, [], false) := rfl

/-! ## Claim C4: hook events for a different repository -/

/-- C4: with a current repository path set, a hook event whose repo field
resolves to a different path after normalization produces no emission and
leaves the app state unchanged. -/
theorem handleHookEvent_other_repo_ignored (st : AppState)
    (ev : HookEventRequest) (norm : String → String)
    (lookup : String → Option CommitNode) (cur r : String)
    (hcur : st.currentRepoPath = some cur) (hrepo : ev.repo = some r)
    (hne : norm cur ≠ norm r) :
    handleHookEvent st ev norm lookup = (st, []) := by
  have hrc : r ≠ cur := fun hh => hne (by rw [hh])
  have hmm : repoMismatch st.currentRepoPath ev.repo norm = true := by
    rw [hcur, hrepo]
    unfold repoMismatch
    simp [hrc, hne]
  unfold handleHookEvent
  rw [hmm]
  simp

/-- C4 witness: current repository /b, hook event for /a, identity
normalization. -/
theorem handleHookEvent_other_repo_ignored_witness :
    handleHookEvent
        { gitWatcher := some "/b", gitService := some "/b", currentRepoPath := some "/b" }
        { repo := some "/a", event := some "commit", hash := some "abc123" }
        id (fun _ => none) =
      ({ gitWatcher := some "/b", gitService := some "/b", currentRepoPath := some "/b" }, []) :=
  handleHookEvent_other_repo_ignored _ _ id _ "/b" "/a" rfl rfl (by decide)

/-! ## Claim C7: POST /event validation -/

/-- C7 counterexample.  A payload in which both required fields are
present but repo is the empty string is answered with the 400 client
error and the callback is not invoked, because the validation tests
JavaScript truthiness, under which an empty string counts as missing. -/
theorem eventEndpoint_rejects_present_empty_repo :
    ({ repo := some "", event := some "commit" } : HookEventRequest).repo ≠ none ∧
    ({ repo := some "", event := some "commit" } : HookEventRequest).event ≠ none ∧
    eventEndpoint { repo := some "", event := some "commit" } true =
      (.badRequest, []) := by
  decide

/-- C7 (amended): a POST /event payload missing a truthy repo or a truthy
event field (absent or empty-string) is answered 400 and the callback is
not invoked; a payload with both fields truthy is answered with the
success acknowledgement and the registered callback is invoked exactly
once, with that payload. -/
theorem eventEndpoint_contract (body : HookEventRequest) (reg : Bool) :
    (truthy body.repo = false ∨ truthy body.event = false →
      eventEndpoint body reg = (.badRequest, [])) ∧
    (truthy body.repo = true → truthy body.event = true → reg = true →
      eventEndpoint body reg = (.ok, [body])) := by
  constructor
  · intro hmiss
    unfold eventEndpoint
    rcases hmiss with hm | hm <;> simp [hm]
  · intro hr he hreg
    unfold eventEndpoint
    simp [hr, he, hreg]

/-- C7 witness: a well-formed payload is acknowledged and delivered once;
a payload without a repo field is rejected. -/
theorem eventEndpoint_contract_witness :
    eventEndpoint { repo := some "/r", event := some "commit" } true =
      (.ok, [{ repo := some "/r", event := some "commit" }]) ∧
    eventEndpoint { event := some "push" } true = (.badRequest, []) :=
  ⟨(eventEndpoint_contract { repo := some "/r", event := some "commit" } true).2
      (by decide) (by decide) rfl,
   (eventEndpoint_contract { event := some "push" } true).1 (Or.inl (by decide))⟩

/-! ## Claim C9: debounce coalescing -/

/-- C9: for a non-empty monotone sequence of filesystem notifications in
which every notification arrives strictly within the debounce window of
the previous one, the reference-log file is re-read exactly once, at the
time the window opened by the last notification elapses; in particular at
most one re-read happens, and it happens only after every notification. -/
theorem debounce_coalesces (ts : List Nat) (h : ts ≠ [])
    (hchain : List.Chain'
      (fun a b => a ≤ b ∧ b < a + FILE_WATCHER_DEBOUNCE_MS) ts) :
    fireTimes ts = [ts.getLast h + FILE_WATCHER_DEBOUNCE_MS] ∧
    ∀ t ∈ ts, t < ts.getLast h + FILE_WATCHER_DEBOUNCE_MS := by
  induction ts with
  | nil => exact absurd rfl h
  | cons t rest ih =>
    cases rest with
    | nil =>
      refine ⟨rfl, ?_⟩
      intro x hx
      simp only [List.mem_singleton] at hx
      subst hx
      simp [List.getLast, FILE_WATCHER_DEBOUNCE_MS]
    | cons t2 rest2 =>
      have hrel : t ≤ t2 ∧ t2 < t + FILE_WATCHER_DEBOUNCE_MS :=
        List.chain'_cons.mp hchain |>.1
      have hchain2 : List.Chain'
          (fun a b => a ≤ b ∧ b < a + FILE_WATCHER_DEBOUNCE_MS) (t2 :: rest2) :=
        List.chain'_cons.mp hchain |>.2
      have hne2 : (t2 :: rest2) ≠ ([] : List Nat) := by simp
      obtain ⟨hfire, hall⟩ := ih hne2 hchain2
      have hlast : (t :: t2 :: rest2).getLast h = (t2 :: rest2).getLast hne2 :=
        List.getLast_cons hne2
      constructor
      · unfold fireTimes
        rw [if_pos hrel.2, hlast]
        exact hfire
      · intro x hx
        rw [hlast]
        rcases List.mem_cons.mp hx with hx1 | hx2
        · subst hx1
          have := hall t2 (by simp)
          omega
        · exact hall x hx2

/-- C9 witness: three notifications 50 ms apart coalesce into a single
re-read 200 ms after the last one. -/
theorem debounce_coalesces_witness :
    fireTimes [0, 50, 100] =
      [([0, 50, 100] : List Nat).getLast (by decide) + FILE_WATCHER_DEBOUNCE_MS] ∧
    ∀ t ∈ ([0, 50, 100] : List Nat),
      t < ([0, 50, 100] : List Nat).getLast (by decide) + FILE_WATCHER_DEBOUNCE_MS :=
  debounce_coalesces [0, 50, 100] (by decide)
    (by norm_num [List.chain'_cons, FILE_WATCHER_DEBOUNCE_MS])

/-! ## Claim C10: unknown watcher events are broadcast as commits -/

/-- Project the git-event payload out of an emission. -/
def emittedGitEvent : Emission → Option GitEventPayload
  | .gitEvent p => some p
  | _ => none

/-- C10: a watcher event carrying a (truthy) hash whose commit lookup
succeeds is broadcast: exactly one git event is emitted, its commit is
the looked-up record, and its type is the watcher event's type except
that an event of kind unknown is emitted with type commit rather than
dropped. -/
theorem watcher_event_broadcast (lookup : String → Option CommitNode)
    (wev : WatcherEvent) (h : String) (c : CommitNode)
    (hhash : wev.hash = some h) (hne : h ≠ "") (hlook : lookup h = some c) :
    (onWatcherEvent true lookup wev).filterMap emittedGitEvent =
      [{ type := if wev.type = .unknown then "commit" else wev.type.str
       , commit := some c, ref := wev.ref, commitId := some h }] := by
  unfold onWatcherEvent
  rw [hhash]
  simp only [hne, hlook, Bool.not_true, Bool.or_false, if_false]
  simp [emittedGitEvent, hne]

/-- C10 witness: a watcher event of kind unknown (e.g. a reset reflog
action) with a resolvable hash is emitted as a git event of type
commit. -/
theorem watcher_event_broadcast_witness :
    (onWatcherEvent true
        (fun hh => if hh = "f00d" then
          some { id := "f00d", parents := [], author := "A", email := "a@x"
               , date := "2024-01-01T00:00:00+00:00", message := "reset work"
               , refs := [] } else none)
        { type := .unknown, hash := some "f00d" }).filterMap emittedGitEvent =
      [{ type := "commit"
       , commit := some { id := "f00d", parents := [], author := "A", email := "a@x"
                        , date := "2024-01-01T00:00:00+00:00", message := "reset work"
                        , refs := [] }
       , ref := none, commitId := some "f00d" }] :=
  watcher_event_broadcast _ _ "f00d" _ rfl (by decide) rfl

/-! ## Claim C8: baseline parsing skips malformed lines -/

/-- C8: a line of log output with fewer than 6 delimiter-separated fields
contributes no record and does not abort the parse loop: removing it from
the line sequence leaves the result unchanged, and the loop is a total
function that processes the lines before and after it independently. -/
theorem getFullLog_skips_malformed (pre suf : List String) (line : String)
    (hmal : (jsSplit line "|||").length < 6) :
    parseLines (pre ++ line :: suf) = parseLines (pre ++ suf) ∧
    parseLines (pre ++ line :: suf) = parseLines pre ++ parseLines suf := by
  unfold parseLines
  rw [List.filterMap_append, List.filterMap_append,
    List.filterMap_cons_none (parseCommitLine_eq_none_of_lt_six line hmal)]
  exact ⟨rfl, rfl⟩

/-- C8 witness: a malformed line between two well-formed records is
skipped while both neighbours are parsed. -/
theorem getFullLog_skips_malformed_witness :
    parseLines (["a1|||p|||A|||a@x|||d1|||m1|||refs"] ++ "corrupt record" ::
        ["a2|||p|||B|||b@x|||d2|||m2|||"]) =
      parseLines (["a1|||p|||A|||a@x|||d1|||m1|||refs"] ++
        ["a2|||p|||B|||b@x|||d2|||m2|||"]) ∧
    parseLines (["a1|||p|||A|||a@x|||d1|||m1|||refs"] ++ "corrupt record" ::
        ["a2|||p|||B|||b@x|||d2|||m2|||"]) =
      parseLines ["a1|||p|||A|||a@x|||d1|||m1|||refs"] ++
        parseLines ["a2|||p|||B|||b@x|||d2|||m2|||"] :=
  getFullLog_skips_malformed ["a1|||p|||A|||a@x|||d1|||m1|||refs"]
    ["a2|||p|||B|||b@x|||d2|||m2|||"] "corrupt record" (by decide)

/-! ## Claim C6: reference-log action classification -/

/-- The action-classification table realised by parseLogLine, written as
a function of the lowercased action text: contains commit and merge gives
merge; commit alone gives commit; otherwise checkout gives checkout;
otherwise merge alone gives merge (this row is absent from the original
claim, which maps such actions to unknown); anything else gives
unknown. -/
def reflogActionKind (action : String) : WatcherEventType :=
  if jsIncludes action "commit" && jsIncludes action "merge" then .merge
  else if jsIncludes action "commit" then .commit
  else if jsIncludes action "checkout" then .checkout
  else if jsIncludes action "merge" then .merge
  else .unknown

/-- C6 counterexample.  A parseable reference-log line whose action
contains merge but neither commit nor checkout is classified merge by
parseLogLine, not unknown as the claim's otherwise-row requires. -/
theorem parseLogLine_merge_without_commit :
    jsIncludes (jsToLower "merge origin/main: Fast-forward") "commit" = false ∧
    jsIncludes (jsToLower "merge origin/main: Fast-forward") "checkout" = false ∧
    jsIncludes (jsToLower "merge origin/main: Fast-forward") "merge" = true ∧
    parseLogLine "0000 1111 x\tmerge origin/main: Fast-forward" =
      some { type := .merge, hash := some "1111" } ∧
    parseLogLine "0000 1111 x\tmerge origin/main: Fast-forward" ≠
      some { type := .unknown, hash := some "1111" } := by
  decide

/-- C6 (amended): for every reference-log line that decomposes into at
least 2 tab-separated parts with at least 3 space-separated header
tokens, parseLogLine takes the second header token as the new hash and
classifies the lowercased action by the table of reflogActionKind —
the claimed table extended with the row that an action containing merge
without commit and without checkout is classified merge; the destination
ref is extracted by the moving-from pattern exactly in the checkout row.
The claim's concrete scenario line parses to kind commit with hash
abc123. -/
theorem parseLogLine_classification (line header actionRaw : String)
    (parts headerTail : List String) (h0 newHash h2 : String)
    (hsplit : jsSplit line "\t" = header :: actionRaw :: parts)
    (hheader : jsSplit header " " = h0 :: newHash :: h2 :: headerTail) :
    parseLogLine line = some
      { type := reflogActionKind (jsToLower actionRaw)
      , hash := some newHash
      , ref := if !jsIncludes (jsToLower actionRaw) "commit"
                  && jsIncludes (jsToLower actionRaw) "checkout"
               then extractCheckoutRef (jsToLower actionRaw) else none } ∧
    parseLogLine "000... abc123 Jane <j@x.com> 1700000000 +0000\tcommit: fix bug" =
      some { type := .commit, hash := some "abc123" } := by
  constructor
  · unfold parseLogLine
    rw [hsplit]
    dsimp only
    rw [hheader]
    dsimp only
    cases hc : jsIncludes (jsToLower actionRaw) "commit" <;>
      cases hm : jsIncludes (jsToLower actionRaw) "merge" <;>
        cases hk : jsIncludes (jsToLower actionRaw) "checkout" <;>
          simp [reflogActionKind, hc, hm, hk]
  · decide

/-- C6 witness: the amended theorem applied at the claim's scenario
line. -/
theorem parseLogLine_classification_witness :
    parseLogLine "000... abc123 Jane <j@x.com> 1700000000 +0000\tcommit: fix bug" =
      some { type := reflogActionKind (jsToLower "commit: fix bug")
           , hash := some "abc123"
           , ref := if !jsIncludes (jsToLower "commit: fix bug") "commit"
                       && jsIncludes (jsToLower "commit: fix bug") "checkout"
                    then extractCheckoutRef (jsToLower "commit: fix bug") else none } ∧
    parseLogLine "000... abc123 Jane <j@x.com> 1700000000 +0000\tcommit: fix bug" =
      some { type := .commit, hash := some "abc123" } :=
  parseLogLine_classification
    "000... abc123 Jane <j@x.com> 1700000000 +0000\tcommit: fix bug"
    "000... abc123 Jane <j@x.com> 1700000000 +0000" "commit: fix bug"
    [] ["<j@x.com>", "1700000000", "+0000"] "000..." "abc123" "Jane"
    (by decide) (by decide)

/-! ## Claim C5: bounded baseline completeness -/

/-- The record the getFullLog parse loop rebuilds from the formatted line
of a commit, assuming the delimiter scheme kept the seven fields apart.
Its id, author, email, date and message equal those of the original
commit by construction. -/
def reparsedCommit (c : CommitNode) : CommitNode :=
  { id := c.id
  , parents := if jsJoin " " c.parents = "" then [] else jsSplit (jsJoin " " c.parents) " "
  , author := c.author
  , email := c.email
  , date := c.date
  , message := c.message
  , refs := if jsJoin ", " c.refs = "" then [] else parseRefs (jsJoin ", " c.refs) }

/-- Parsing the formatted line of a commit succeeds and rebuilds the
commit, provided the formatted line is not blank and the delimiter
sequence does not occur inside any field (the hypotheses state exactly
that the split of the line returns the seven fields). -/
theorem parseCommitLine_format (c : CommitNode)
    (htrim : jsTrim (formatCommitLine c) ≠ "")
    (hsplit : jsSplit (formatCommitLine c) "|||" =
      [c.id, jsJoin " " c.parents, c.author, c.email, c.date, c.message,
       jsJoin ", " c.refs]) :
    parseCommitLine (formatCommitLine c) = some (reparsedCommit c) := by
  unfold parseCommitLine
  rw [if_neg htrim, hsplit]
  rfl

/-- The parse loop over the formatted lines of a commit list rebuilds the
list elementwise. -/
theorem parseLines_map_format (l : List CommitNode)
    (h : ∀ c ∈ l, parseCommitLine (formatCommitLine c) = some (reparsedCommit c)) :
    parseLines (l.map formatCommitLine) = l.map reparsedCommit := by
  induction l with
  | nil => rfl
  | cons a t ih =>
    unfold parseLines at *
    rw [List.map_cons, List.filterMap_cons, h a (by simp), List.map_cons]
    rw [ih (fun c hc => h c (List.mem_cons_of_mem a hc))]

/-- C5: getFullLog returns min(totalReachableCommits, MAX_COMMITS_TO_LOAD)
records; each record's id, author and timestamp are those of the
corresponding repository commit in most-recent-first order; and every
returned record has non-empty id, author and timestamp.  Hypotheses:
the newline join of the formatted lines splits back into those lines
(no field contains a newline and the output has no leading or trailing
whitespace to trim), each formatted line is non-blank and splits back
into its seven fields (the delimiter occurs in no field — the
approximation the spec itself accepts for its delimiter scheme), and
the underlying commits carry non-empty id, author and date, as git
guarantees for real repositories. -/
theorem getFullLog_baseline (repo : List CommitNode)
    (hlines : jsSplit (jsTrim (gitLogAllOutput repo MAX_COMMITS_TO_LOAD)) "\n" =
      (repo.take MAX_COMMITS_TO_LOAD).map formatCommitLine)
    (hdelim : ∀ c ∈ repo, jsTrim (formatCommitLine c) ≠ "" ∧
      jsSplit (formatCommitLine c) "|||" =
        [c.id, jsJoin " " c.parents, c.author, c.email, c.date, c.message,
         jsJoin ", " c.refs])
    (hfields : ∀ c ∈ repo, c.id ≠ "" ∧ c.author ≠ "" ∧ c.date ≠ "") :
    (getFullLog repo).length = min repo.length MAX_COMMITS_TO_LOAD ∧
    (getFullLog repo).map (fun r => (r.id, r.author, r.date)) =
      (repo.map (fun c => (c.id, c.author, c.date))).take MAX_COMMITS_TO_LOAD ∧
    ∀ r ∈ getFullLog repo, r.id ≠ "" ∧ r.author ≠ "" ∧ r.date ≠ "" := by
  have hfull : getFullLog repo = (repo.take MAX_COMMITS_TO_LOAD).map reparsedCommit := by
    unfold getFullLog parseLogOutput
    rw [hlines]
    exact parseLines_map_format _ (fun c hc =>
      parseCommitLine_format c
        (hdelim c (List.mem_of_mem_take hc)).1
        (hdelim c (List.mem_of_mem_take hc)).2)
  refine ⟨?_, ?_, ?_⟩
  · rw [hfull, List.length_map, List.length_take, Nat.min_comm]
  · rw [hfull, List.map_map, ← List.map_take]
    rfl
  · intro r hr
    rw [hfull] at hr
    obtain ⟨c, hc, rfl⟩ := List.mem_map.mp hr
    exact hfields c (List.mem_of_mem_take hc)

/-- A concrete three-commit repository, most recent first. -/
def repo3 : List CommitNode :=
  [ { id := "c3", parents := ["c2"], author := "Ann", email := "a@x"
    , date := "2024-03-03T00:00:00+00:00", message := "third"
    , refs := ["HEAD -> main", "origin/main"] }
  , { id := "c2", parents := ["c1"], author := "Bob", email := "b@x"
    , date := "2024-02-02T00:00:00+00:00", message := "second", refs := [] }
  , { id := "c1", parents := [], author := "Ann", email := "a@x"
    , date := "2024-01-01T00:00:00+00:00", message := "first", refs := [] } ]

set_option maxRecDepth 100000 in
/-- C5 witness: the baseline theorem applied to the concrete three-commit
repository, whose hypotheses all evaluate. -/
theorem getFullLog_baseline_witness :
    (getFullLog repo3).length = min repo3.length MAX_COMMITS_TO_LOAD ∧
    (getFullLog repo3).map (fun r => (r.id, r.author, r.date)) =
      (repo3.map (fun c => (c.id, c.author, c.date))).take MAX_COMMITS_TO_LOAD ∧
    ∀ r ∈ getFullLog repo3, r.id ≠ "" ∧ r.author ≠ "" ∧ r.date ≠ "" :=
  getFullLog_baseline repo3 (by decide) (by decide) (by decide)

/-! ## Claim C1: deduplication of the two change-signal sources -/

/-- Number of git events among the emissions whose commit has the given
id. -/
def countGitEventsFor (cid : String) (ems : List Emission) : Nat :=
  ems.countP (fun e =>
    match e with
    | .gitEvent p =>
      match p.commit with
      | some c => c.id == cid
      | none => false
    | _ => false)

/-- A concrete commit used by the concrete runs below. -/
def abcCommit : CommitNode :=
  { id := "abc123", parents := [], author := "Jane", email := "j@x.com"
  , date := "2023-11-14T00:00:00+00:00", message := "fix bug", refs := [] }

/-- Lookup oracle resolving exactly the hash abc123. -/
def abcLookup : String → Option CommitNode :=
  fun h => if h = "abc123" then some abcCommit else none

/-- App state with repository /r fully loaded. -/
def loadedState : AppState :=
  { gitWatcher := some "/r", gitService := some "/r", currentRepoPath := some "/r" }

/-- C1 counterexample.  With repository /r loaded, a push-channel hook
event and a log-tail watcher event that both resolve to commit abc123
cause two git events for that id to be dispatched to subscribers, not
exactly one: the main process keeps no set of already-known commit ids
and performs no deduplication before dispatch. -/
theorem dual_sources_dispatch_twice :
    countGitEventsFor "abc123"
      ((handleHookEvent loadedState
          { repo := some "/r", event := some "commit", hash := some "abc123" }
          id abcLookup).2 ++
        onWatcherEvent true abcLookup
          { type := .commit, hash := some "abc123" }) = 2 ∧
    ¬ countGitEventsFor "abc123"
      ((handleHookEvent loadedState
          { repo := some "/r", event := some "commit", hash := some "abc123" }
          id abcLookup).2 ++
        onWatcherEvent true abcLookup
          { type := .commit, hash := some "abc123" }) = 1 := by
  decide

/-- C1 (amended): the main process dispatches one ChangeEvent per
arriving raw signal with no id-based deduplication, so two racing sources
resolving to the same commit id dispatch two events; deduplication
happens at the subscriber, whose git-event handler discards an incoming
commit whose id is already in its commit list, so that for any id whose
count in the subscriber's list is at most one, processing any sequence of
dispatched events leaves at most one list entry with that id. -/
theorem subscriber_commit_list_dedup (evs : List GitEventPayload)
    (commits : List CommitNode) (cid : String)
    (h : commits.countP (fun c => c.id == cid) ≤ 1) :
    (evs.foldl handleGitEvent commits).countP (fun c => c.id == cid) ≤ 1 := by
  induction evs generalizing commits with
  | nil => exact h
  | cons ev t ih =>
    rw [List.foldl_cons]
    refine ih (handleGitEvent commits ev) ?_
    unfold handleGitEvent
    cases hc : ev.commit with
    | none => exact h
    | some c =>
      dsimp only
      cases ha : commits.any (fun x => x.id == c.id) with
      | true =>
        rw [if_pos rfl]
        exact h
      | false =>
        rw [if_neg Bool.false_ne_true]
        rw [List.countP_append]
        have hzero : ∀ x ∈ commits, ¬(x.id == c.id) = true :=
          fun x hx => by
            intro hb
            have : commits.any (fun x => x.id == c.id) = true :=
              List.any_eq_true.mpr ⟨x, hx, hb⟩
            rw [ha] at this
            exact Bool.false_ne_true this
        cases hcid : c.id == cid with
        | false =>
          have hone : List.countP (fun c => c.id == cid) [c] = 0 := by
            simp [List.countP, List.countP.go, hcid]
          omega
        | true =>
          have hcc : c.id = cid := by simpa using hcid
          have h0 : commits.countP (fun x => x.id == cid) = 0 := by
            rw [List.countP_eq_zero]
            intro x hx
            rw [← hcc]
            exact hzero x hx
          have h1 : List.countP (fun c => c.id == cid) [c] = 1 := by
            simp [List.countP, List.countP.go, hcid]
          omega

/-- C1 witness: the two events dispatched by the counterexample run,
folded into an empty subscriber list, leave exactly at most one entry for
abc123. -/
theorem subscriber_commit_list_dedup_witness :
    ([ { type := "commit", commit := some abcCommit }
     , { type := "commit", commit := some abcCommit } ].foldl
        handleGitEvent []).countP (fun c => c.id == "abc123") ≤ 1 :=
  subscriber_commit_list_dedup
    [ { type := "commit", commit := some abcCommit }
    , { type := "commit", commit := some abcCommit } ] [] "abc123" (by decide)
